import Mathlib

/-!
# Verification of the GitHub webhook receiver (`main.go`)

A shallow embedding of `githubWebhookTestHandler` and `main`, together with the
standard-library functions they call (`strings.HasPrefix`, `encoding/hex`,
`crypto/sha256`, `crypto/hmac`, `crypto/subtle`).

Go strings and byte slices are lists of bytes; a byte is a natural number below 256.
-/

namespace Webhook

set_option maxRecDepth 100000

/-! ## Bytes -/

/-- Bytes of an ASCII string literal (Go's `[]byte(s)` for ASCII text). -/
def asciiBytes (s : String) : List Nat := s.toList.map Char.toNat

/-- Go's `strings.HasPrefix(s, pre)`: `len(s) >= len(pre) && s[:len(pre)] == pre`. -/
def HasPrefix (s pre : List Nat) : Bool :=
  decide (pre.length ≤ s.length) && (s.take pre.length == pre)

/-- Go's slice expression `s[n:]`, which panics when `n > len(s)`. -/
def sliceFrom (s : List Nat) (n : Nat) : Option (List Nat) :=
  if n ≤ s.length then some (s.drop n) else none

/-! ## `crypto/sha256` (FIPS 180-4) -/

/-- Rotate a 32-bit word right by `n` bits. -/
def rotr32 (x n : Nat) : Nat := ((x >>> n) ||| (x <<< (32 - n))) % 2 ^ 32

/-- Round constants of SHA-256. -/
def sha256K : List Nat :=
  [0x428a2f98, 0x71374491, 0xb5c0fbcf, 0xe9b5dba5, 0x3956c25b, 0x59f111f1, 0x923f82a4, 0xab1c5ed5,
   0xd807aa98, 0x12835b01, 0x243185be, 0x550c7dc3, 0x72be5d74, 0x80deb1fe, 0x9bdc06a7, 0xc19bf174,
   0xe49b69c1, 0xefbe4786, 0x0fc19dc6, 0x240ca1cc, 0x2de92c6f, 0x4a7484aa, 0x5cb0a9dc, 0x76f988da,
   0x983e5152, 0xa831c66d, 0xb00327c8, 0xbf597fc7, 0xc6e00bf3, 0xd5a79147, 0x06ca6351, 0x14292967,
   0x27b70a85, 0x2e1b2138, 0x4d2c6dfc, 0x53380d13, 0x650a7354, 0x766a0abb, 0x81c2c92e, 0x92722c85,
   0xa2bfe8a1, 0xa81a664b, 0xc24b8b70, 0xc76c51a3, 0xd192e819, 0xd6990624, 0xf40e3585, 0x106aa070,
   0x19a4c116, 0x1e376c08, 0x2748774c, 0x34b0bcb5, 0x391c0cb3, 0x4ed8aa4a, 0x5b9cca4f, 0x682e6ff3,
   0x748f82ee, 0x78a5636f, 0x84c87814, 0x8cc70208, 0x90befffa, 0xa4506ceb, 0xbef9a3f7, 0xc67178f2]

/-- Big-endian 32-bit word from four bytes. -/
def beWord (b0 b1 b2 b3 : Nat) : Nat := (b0 <<< 24) ||| (b1 <<< 16) ||| (b2 <<< 8) ||| b3

/-- The sixteen big-endian words of a 64-byte block. -/
def blockWords : List Nat → List Nat
  | b0 :: b1 :: b2 :: b3 :: rest => beWord b0 b1 b2 b3 :: blockWords rest
  | _ => []

/-- Message schedule: extends the 16 block words to 64 words. -/
def schedule (w : List Nat) : List Nat :=
  (List.range 48).foldl (fun w j =>
    let i := j + 16
    let v1 := w.getD (i - 2) 0
    let t1 := rotr32 v1 17 ^^^ rotr32 v1 19 ^^^ (v1 >>> 10)
    let v2 := w.getD (i - 15) 0
    let t2 := rotr32 v2 7 ^^^ rotr32 v2 18 ^^^ (v2 >>> 3)
    w ++ [(t1 + w.getD (i - 7) 0 + t2 + w.getD (i - 16) 0) % 2 ^ 32]) w

/-- The eight 32-bit working registers / chaining value. -/
structure Regs where
  a : Nat
  b : Nat
  c : Nat
  d : Nat
  e : Nat
  f : Nat
  g : Nat
  h : Nat
deriving DecidableEq, Repr

/-- Initial hash value of SHA-256. -/
def sha256Init : Regs :=
  ⟨0x6a09e667, 0xbb67ae85, 0x3c6ef372, 0xa54ff53a, 0x510e527f, 0x9b05688c, 0x1f83d9ab, 0x5be0cd19⟩

/-- One of the 64 rounds; `kw` is the round constant and the schedule word. -/
def round (r : Regs) (kw : Nat × Nat) : Regs :=
  let t1 := (r.h + (rotr32 r.e 6 ^^^ rotr32 r.e 11 ^^^ rotr32 r.e 25)
    + ((r.e &&& r.f) ^^^ ((r.e ^^^ 0xffffffff) &&& r.g)) + kw.1 + kw.2) % 2 ^ 32
  let t2 := ((rotr32 r.a 2 ^^^ rotr32 r.a 13 ^^^ rotr32 r.a 22)
    + ((r.a &&& r.b) ^^^ (r.a &&& r.c) ^^^ (r.b &&& r.c))) % 2 ^ 32
  { a := (t1 + t2) % 2 ^ 32, b := r.a, c := r.b, d := r.c,
    e := (r.d + t1) % 2 ^ 32, f := r.e, g := r.f, h := r.g }

/-- Compression of one 64-byte block into the chaining value. -/
def compress (hs : Regs) (block : List Nat) : Regs :=
  let r := (sha256K.zip (schedule (blockWords block))).foldl round hs
  { a := (hs.a + r.a) % 2 ^ 32, b := (hs.b + r.b) % 2 ^ 32, c := (hs.c + r.c) % 2 ^ 32,
    d := (hs.d + r.d) % 2 ^ 32, e := (hs.e + r.e) % 2 ^ 32, f := (hs.f + r.f) % 2 ^ 32,
    g := (hs.g + r.g) % 2 ^ 32, h := (hs.h + r.h) % 2 ^ 32 }

/-- Big-endian bytes of a 32-bit word. -/
def beBytes32 (w : Nat) : List Nat :=
  [(w >>> 24) % 256, (w >>> 16) % 256, (w >>> 8) % 256, w % 256]

/-- Big-endian bytes of a 64-bit word. -/
def beBytes64 (n : Nat) : List Nat :=
  [(n >>> 56) % 256, (n >>> 48) % 256, (n >>> 40) % 256, (n >>> 32) % 256,
   (n >>> 24) % 256, (n >>> 16) % 256, (n >>> 8) % 256, n % 256]

/-- Padding: `0x80`, zeros up to 56 mod 64, then the bit length as a 64-bit word. -/
def sha256Pad (msg : List Nat) : List Nat :=
  let len := msg.length
  let padLen := if len % 64 < 56 then 56 - len % 64 else 64 + 56 - len % 64
  msg ++ (0x80 :: List.replicate (padLen - 1) 0) ++ beBytes64 ((len <<< 3) % 2 ^ 64)

/-- Process the padded message block after block; `n` is the number of blocks. -/
def blocks : Nat → Regs → List Nat → Regs
  | 0, hs, _ => hs
  | n + 1, hs, p => blocks n (compress hs (p.take 64)) (p.drop 64)

/-- The 32-byte SHA-256 digest of `msg` (`sha256.Sum256`). -/
def sha256Sum (msg : List Nat) : List Nat :=
  let p := sha256Pad msg
  let r := blocks (p.length / 64) sha256Init p
  beBytes32 r.a ++ beBytes32 r.b ++ beBytes32 r.c ++ beBytes32 r.d ++
  beBytes32 r.e ++ beBytes32 r.f ++ beBytes32 r.g ++ beBytes32 r.h

/-! ## `crypto/hmac` and `crypto/subtle` -/

/-- HMAC-SHA256 (RFC 2104): what `hmac.New(sha256.New, key)`, `h.Write(msg)`, `h.Sum(nil)`
compute. Keys longer than the 64-byte block are hashed first, then zero-padded. -/
def hmacSha256 (key msg : List Nat) : List Nat :=
  let k := if key.length > 64 then sha256Sum key else key
  let k := k ++ List.replicate (64 - k.length) 0
  let ipad := k.map (· ^^^ 0x36)
  let opad := k.map (· ^^^ 0x5c)
  sha256Sum (opad ++ sha256Sum (ipad ++ msg))


/-- Go's `subtle.ConstantTimeByteEq(x, y)`: `int((uint32(x^y) - 1) >> 31)`. -/
def ConstantTimeByteEq (x y : Nat) : Nat :=
  (((x ^^^ y) % 2 ^ 32 + 2 ^ 32 - 1) % 2 ^ 32) >>> 31

/-- Go's `subtle.ConstantTimeCompare(x, y)`: 0 on a length mismatch, otherwise the
OR of the XORs of all byte pairs is accumulated in a byte and compared with 0. -/
def ConstantTimeCompare (x y : List Nat) : Nat :=
  if x.length ≠ y.length then 0
  else ConstantTimeByteEq ((x.zip y).foldl (fun v p => (v ||| (p.1 ^^^ p.2)) % 256) 0) 0

/-- Go's `hmac.Equal(mac1, mac2)`. -/
def hmacEqual (mac1 mac2 : List Nat) : Bool :=
  ConstantTimeCompare mac1 mac2 == 1

/-! ## `encoding/hex` -/

/-- Errors of `hex.DecodeString`. -/
inductive HexError where
  | InvalidByteError (b : Nat)
  | ErrLength
deriving DecidableEq, Repr

/-- Go's `hextable`. -/
def hextable : List Nat := asciiBytes "0123456789abcdef"

/-- Go's `hex.EncodeToString`: two lowercase digits `hextable[v>>4]`, `hextable[v&0x0f]`
per byte. -/
def EncodeToString : List Nat → List Nat
  | [] => []
  | v :: rest => hextable.getD (v >>> 4) 0 :: hextable.getD (v &&& 0x0f) 0 :: EncodeToString rest

/-- Go's `fromHexChar`: the value of a hex digit, of either case. -/
def fromHexChar (c : Nat) : Option Nat :=
  if 48 ≤ c ∧ c ≤ 57 then some (c - 48)            -- '0' .. '9'
  else if 97 ≤ c ∧ c ≤ 102 then some (c - 97 + 10)  -- 'a' .. 'f'
  else if 65 ≤ c ∧ c ≤ 70 then some (c - 65 + 10)   -- 'A' .. 'F'
  else none

/-- Go's `hex.DecodeString`: pairs of digits are decoded from left to right, the first
invalid character is reported; a dangling last character is reported as invalid if it
is, and as `ErrLength` otherwise. -/
def DecodeString : List Nat → Except HexError (List Nat)
  | [] => .ok []
  | [p] => if fromHexChar p = none then .error (.InvalidByteError p) else .error .ErrLength
  | p :: q :: rest =>
    match fromHexChar p with
    | none => .error (.InvalidByteError p)
    | some a =>
      match fromHexChar q with
      | none => .error (.InvalidByteError q)
      | some b =>
        match DecodeString rest with
        | .error e => .error e
        | .ok bs => .ok (((a <<< 4) ||| b) :: bs)

/-! ## `main.go` -/

/-- The `serverConfig` struct. -/
structure serverConfig where
  Secret : List Nat
  HookUrl : List Nat
  Port : Int
deriving DecidableEq, Repr

/-- The `githubWebhookHeader` struct, filled by `c.ShouldBindHeader`. -/
structure githubWebhookHeader where
  Signature256 : List Nat
  UserAgent : List Nat
deriving DecidableEq, Repr

/-- What the handler obtains from the gin context: the outcome of `ShouldBindHeader`,
the bound header, the outcome of `ioutil.ReadAll` on the body (`none` is a read error)
and whether closing the body failed. -/
structure Request where
  bindErr : Bool
  header : githubWebhookHeader
  body : Option (List Nat)
  closeErr : Bool
deriving DecidableEq, Repr

/-- A line written with `log.Printf`. -/
inductive LogLine where
  | error (msg : String)
  | validRequest (body : List Nat)
deriving DecidableEq, Repr

/-- A response written with `c.String(status, body)`. -/
structure Response where
  status : Nat
  body : String
deriving DecidableEq, Repr

/-- The handler's local variables `ok` and `errMsg`, with the log and the response
written so far. -/
structure HandlerState where
  ok : Bool
  errMsg : String
  log : List LogLine
  written : Option Response
deriving DecidableEq, Repr

/-- What a call of the handler leaves behind: the response written (if any), the log
lines, and whether a runtime panic escaped the handler. -/
structure Outcome where
  response : Option Response
  log : List LogLine
  panicked : Bool
deriving DecidableEq, Repr

/-- The closure `handleError`: clears `ok`, records the message and logs it. -/
def handleError (st : HandlerState) (msg : String) : HandlerState :=
  { st with ok := false, errMsg := msg, log := st.log ++ [.error msg] }

/-- The last two statements of the handler: log the payload, answer 200 "OK". -/
def respondOK (st : HandlerState) (body : List Nat) : HandlerState :=
  { st with log := st.log ++ [.validRequest body], written := some ⟨200, "OK"⟩ }

/-- The body of `githubWebhookTestHandler` up to its return; the flag tells whether it
left through a panic (the slice expression `header.Signature256[7:]`). -/
def handlerBody (config : serverConfig) (c : Request) (st : HandlerState) :
    HandlerState × Bool :=
  if c.bindErr then (handleError st "could not bind header", false)
  else if !HasPrefix c.header.UserAgent (asciiBytes "GitHub-Hookshot/") then
    (handleError st "invalid user agent", false)
  else
    match c.body with
    | none => (handleError st "could not read request body", false)
    | some body =>
      if c.closeErr then (handleError st "could not close body reader", false)
      else if config.Secret ≠ [] then
        let expectedSig := hmacSha256 config.Secret body
        match sliceFrom c.header.Signature256 7 with
        | none => (st, true)
        | some rest =>
          match DecodeString rest with
          | .error _ => (handleError st "could not decode hex string", false)
          | .ok receivedSig =>
            let valid := hmacEqual receivedSig expectedSig
            if !valid then (handleError st "invalid signature", false)
            else (respondOK st body, false)
      else (respondOK st body, false)

/-- The deferred function: answers 403 with `errMsg` when `ok` was cleared. -/
def deferred (st : HandlerState) : HandlerState :=
  if !st.ok then { st with written := some ⟨403, st.errMsg⟩ } else st

/-- The handler `githubWebhookTestHandler`, run with the global `config`. -/
def githubWebhookTestHandler (config : serverConfig) (c : Request) : Outcome :=
  let r := handlerBody config c { ok := true, errMsg := "", log := [], written := none }
  let st := deferred r.1
  { response := st.written, log := st.log, panicked := r.2 }

/-- The header value the sender computes: the scheme, then the lowercase hex digest. -/
def validSignatureOf (s b : List Nat) : List Nat :=
  asciiBytes "sha256=" ++ EncodeToString (hmacSha256 s b)

/-- The outcome of an accepted request. -/
def accepted (body : List Nat) : Outcome :=
  { response := some ⟨200, "OK"⟩, log := [.validRequest body], panicked := false }

/-- The outcome of a request rejected with the diagnostic `msg`. -/
def rejected (msg : String) : Outcome :=
  { response := some ⟨403, msg⟩, log := [.error msg], panicked := false }

/-- A request whose headers bound and whose body was read and closed without error. -/
def mkRequest (userAgent signature body : List Nat) : Request :=
  { bindErr := false, header := ⟨signature, userAgent⟩, body := some body, closeErr := false }

/-- The spec's notion of a hex digit: `0`-`9`, `a`-`f` or `A`-`F`. -/
def isHexChar (c : Nat) : Bool :=
  (decide (48 ≤ c) && decide (c ≤ 57)) || (decide (97 ≤ c) && decide (c ≤ 102)) ||
    (decide (65 ≤ c) && decide (c ≤ 70))

/-- Flip bit `k` of byte `i` of a byte string: the single-bit mutations of `h` are the
`flipBit h i k` with `i < h.length` and `k < 8`. -/
def flipBit (h : List Nat) (i k : Nat) : List Nat :=
  h.set i (h.getD i 0 ^^^ 2 ^ k)

/-- Result of `os.Open`: an open file (with what `ioutil.ReadAll` returns on it: the bytes
read and whether it reported an error), `os.ErrNotExist`, or another error. -/
inductive OpenResult where
  | opened (content : List Nat) (readErr : Bool)
  | notExist
  | otherError
deriving DecidableEq, Repr

/-- The environment of `main`: the results of opening the two configuration files, and
`toml.Unmarshal(content, &config)` as a function of the content and the current value
of `config`, returning the new value of `config` and whether it reported an error. -/
structure Env where
  openConfig : OpenResult
  openDefault : OpenResult
  unmarshal : List Nat → serverConfig → serverConfig × Bool

/-- What `main` does: the lines it logs and, when it reaches `server.POST` and
`server.Run`, the configuration it serves with. -/
structure MainOutcome where
  log : List String
  serving : Option serverConfig
deriving DecidableEq, Repr

/-- The zero value of the global `config`. -/
def zeroConfig : serverConfig := { Secret := [], HookUrl := [], Port := 0 }

/-- Go's `ioutil.ReadAll(file)`: on a nil `*os.File` (the open failed) `Read` reports
`os.ErrInvalid` and nothing is read. -/
def readAll : OpenResult → List Nat × Bool
  | .opened content readErr => (content, readErr)
  | .notExist => ([], true)
  | .otherError => ([], true)

/-- The statements of `main` after the file has been chosen: read, unmarshal, serve.
Neither error branch returns. -/
def loadAndServe (env : Env) (file : OpenResult) : MainOutcome :=
  let r := readAll file
  let log1 := if r.2 then ["could not read config file"] else []
  let u := env.unmarshal r.1 zeroConfig
  let log2 := if u.2 then log1 ++ ["could not unmarshal config content"] else log1
  { log := log2, serving := some u.1 }

/-- The function `main`. -/
def main (env : Env) : MainOutcome :=
  match env.openConfig with
  | .notExist =>
    match env.openDefault with
    | .notExist => { log := ["could not open config file"], serving := none }
    | file => loadAndServe env file
  | file => loadAndServe env file

/-! ## Example inputs -/

/-- The secret `"abc"`. -/
def exSecret : List Nat := asciiBytes "abc"

/-- The two-byte body of an empty JSON object. -/
def exBody : List Nat := asciiBytes "\x7b\x7d"

/-- A User-Agent as GitHub sends it. -/
def exUserAgent : List Nat := asciiBytes "GitHub-Hookshot/044aadd"

/-- A configuration with the secret `"abc"`. -/
def exConfig : serverConfig :=
  { Secret := exSecret, HookUrl := asciiBytes "/webhook", Port := 8080 }

/-- A configuration with the empty secret. -/
def exOpenConfig : serverConfig :=
  { Secret := [], HookUrl := asciiBytes "/webhook", Port := 8080 }

/-- The valid signature header for `exSecret` and `exBody`. -/
def exSignature : List Nat :=
  asciiBytes "sha256=19092633e5aa9a849dfcc9d2df4e76db2df1fcba7f38915f2c7833bd8a510f2f"

/-- An environment in which `config.toml` opens and reads, and its content is rejected
by `toml.Unmarshal`, which leaves `config` untouched. -/
def exBadTomlEnv : Env :=
  { openConfig := .opened (asciiBytes "Secret = ") false
    openDefault := .notExist
    unmarshal := fun _ cfg => (cfg, true) }

/-- An environment in which `config.toml` exists and cannot be opened (say, for lack of
permission), and `toml.Unmarshal` accepts the empty document, leaving `config` untouched. -/
def exUnreadableEnv : Env :=
  { openConfig := .otherError
    openDefault := .notExist
    unmarshal := fun content cfg => (cfg, content != []) }


/-! ## Lemmas on the library functions -/

theorem or_eq_zero_iff (x y : Nat) : x ||| y = 0 ↔ x = 0 ∧ y = 0 := by
  constructor
  · intro h
    have hb : ∀ i, x.testBit i = false ∧ y.testBit i = false := by
      intro i
      have := congrArg (fun n => Nat.testBit n i) h
      simpa [Nat.testBit_or] using this
    constructor
    · apply Nat.eq_of_testBit_eq; intro i; simp [(hb i).1]
    · apply Nat.eq_of_testBit_eq; intro i; simp [(hb i).2]
  · rintro ⟨rfl, rfl⟩; rfl

theorem ConstantTimeByteEq_zero (v : Nat) (hv : v < 256) :
    ConstantTimeByteEq v 0 = 1 ↔ v = 0 := by
  unfold ConstantTimeByteEq
  rw [Nat.xor_zero, Nat.shiftRight_eq_div_pow]
  constructor
  · intro h
    by_contra hne
    have h1 : (v % 2 ^ 32 + 2 ^ 32 - 1) % 2 ^ 32 = v - 1 := by omega
    rw [h1] at h
    omega
  · rintro rfl
    decide

theorem foldl_or_xor (x y : List Nat) (v : Nat) (hlen : x.length = y.length)
    (hv : v < 256) (hx : ∀ b ∈ x, b < 256) (hy : ∀ b ∈ y, b < 256) :
    (x.zip y).foldl (fun v p => (v ||| (p.1 ^^^ p.2)) % 256) v < 256 ∧
    ((x.zip y).foldl (fun v p => (v ||| (p.1 ^^^ p.2)) % 256) v = 0 ↔ v = 0 ∧ x = y) := by
  induction x generalizing y v with
  | nil =>
    cases y with
    | nil => simp [hv]
    | cons b y => simp at hlen
  | cons a x ih =>
    cases y with
    | nil => simp at hlen
    | cons b y =>
      have ha : a < 2 ^ 8 := hx a (by simp)
      have hb : b < 2 ^ 8 := hy b (by simp)
      have hv8 : v < 2 ^ 8 := hv
      have hlt : v ||| (a ^^^ b) < 2 ^ 8 :=
        Nat.or_lt_two_pow hv8 (Nat.xor_lt_two_pow ha hb)
      have hmod : (v ||| (a ^^^ b)) % 256 = v ||| (a ^^^ b) := Nat.mod_eq_of_lt hlt
      have := ih y ((v ||| (a ^^^ b)) % 256) (by simpa using hlen) (by rw [hmod]; exact hlt)
        (fun c hc => hx c (by simp [hc])) (fun c hc => hy c (by simp [hc]))
      simp only [List.zip_cons_cons, List.foldl_cons]
      refine ⟨this.1, ?_⟩
      rw [this.2, hmod, or_eq_zero_iff, Nat.xor_eq_zero]
      constructor
      · rintro ⟨⟨h1, h2⟩, h3⟩; exact ⟨h1, by rw [h2, h3]⟩
      · rintro ⟨h1, h2⟩
        injection h2 with h2 h3
        exact ⟨⟨h1, h2⟩, h3⟩

/-- On byte strings `hmac.Equal` decides equality. -/
theorem hmacEqual_iff (x y : List Nat) (hx : ∀ b ∈ x, b < 256) (hy : ∀ b ∈ y, b < 256) :
    hmacEqual x y = true ↔ x = y := by
  unfold hmacEqual ConstantTimeCompare
  by_cases hlen : x.length = y.length
  · have h := foldl_or_xor x y 0 hlen (by decide) hx hy
    simp only [hlen, ne_eq, not_true_eq_false, if_false, beq_iff_eq]
    rw [ConstantTimeByteEq_zero _ h.1, h.2]
    simp
  · simp only [ne_eq, hlen, not_false_eq_true, if_true]
    constructor
    · intro h; simp at h
    · intro h; exact absurd (congrArg List.length h) hlen

theorem beBytes32_lt (w b : Nat) (h : b ∈ beBytes32 w) : b < 256 := by
  simp only [beBytes32, List.mem_cons, List.mem_singleton, List.not_mem_nil, or_false] at h
  rcases h with h | h | h | h <;> (subst h; exact Nat.mod_lt _ (by decide))

theorem sha256Sum_lt (msg : List Nat) : ∀ b ∈ sha256Sum msg, b < 256 := by
  intro b hb
  simp only [sha256Sum, List.mem_append] at hb
  rcases hb with ((((((hb | hb) | hb) | hb) | hb) | hb) | hb) | hb <;>
    exact beBytes32_lt _ _ hb

theorem sha256Sum_length (msg : List Nat) : (sha256Sum msg).length = 32 := by
  simp [sha256Sum, beBytes32]

theorem hmacSha256_lt (key msg : List Nat) : ∀ b ∈ hmacSha256 key msg, b < 256 :=
  sha256Sum_lt _

theorem hmacSha256_length (key msg : List Nat) : (hmacSha256 key msg).length = 32 :=
  sha256Sum_length _

theorem fromHexChar_lt (c a : Nat) (h : fromHexChar c = some a) : a < 16 := by
  unfold fromHexChar at h
  split_ifs at h <;> simp at h <;> omega

theorem fromHexChar_eq_none (c : Nat) : fromHexChar c = none ↔ isHexChar c = false := by
  unfold fromHexChar isHexChar
  split_ifs <;> simp <;> omega

theorem hex_digits_of_byte : ∀ v, v < 256 →
    fromHexChar (hextable.getD (v >>> 4) 0) = some (v >>> 4) ∧
    fromHexChar (hextable.getD (v &&& 0x0f) 0) = some (v &&& 0x0f) ∧
    (((v >>> 4) <<< 4) ||| (v &&& 0x0f)) = v := by
  decide

theorem byte_of_hex_digits : ∀ a, a < 16 → ∀ b, b < 16 →
    ((a <<< 4) ||| b) < 256 ∧ ((a <<< 4) ||| b) >>> 4 = a ∧ ((a <<< 4) ||| b) &&& 0x0f = b := by
  decide

/-- Decoding undoes encoding: `hex.DecodeString(hex.EncodeToString(bs)) = bs`. -/
theorem DecodeString_EncodeToString (bs : List Nat) (h : ∀ b ∈ bs, b < 256) :
    DecodeString (EncodeToString bs) = .ok bs := by
  induction bs with
  | nil => rfl
  | cons v rest ih =>
    obtain ⟨h1, h2, h3⟩ := hex_digits_of_byte v (h v (by simp))
    have ih' := ih (fun b hb => h b (by simp [hb]))
    simp only [EncodeToString, DecodeString, h1, h2, ih', h3]

theorem EncodeToString_length (bs : List Nat) : (EncodeToString bs).length = 2 * bs.length := by
  induction bs with
  | nil => rfl
  | cons v rest ih => simp only [EncodeToString, List.length_cons, ih]; omega

/-- A successful decode determines the value of every digit of its input. -/
theorem DecodeString_ok_map (xs d : List Nat) (h : DecodeString xs = .ok d) :
    xs.map fromHexChar = d.flatMap (fun v => [some (v >>> 4), some (v &&& 0x0f)]) := by
  induction xs using DecodeString.induct generalizing d with
  | case1 => simp [DecodeString] at h; subst h; rfl
  | case2 p hp => simp [DecodeString, hp] at h
  | case3 p hp => simp [DecodeString, hp] at h
  | case4 p q rest hp => simp [DecodeString, hp] at h
  | case5 p q rest a hp hq => simp [DecodeString, hp, hq] at h
  | case6 p q rest a hp b hq e he ih => simp [DecodeString, hp, hq, he] at h
  | case7 p q rest a hp b hq bs hbs ih =>
    simp only [DecodeString, hp, hq, hbs] at h
    injection h with h
    subst h
    obtain ⟨_, h2, h3⟩ := byte_of_hex_digits a (fromHexChar_lt _ _ hp) b (fromHexChar_lt _ _ hq)
    simp only [List.map_cons, List.flatMap_cons, hp, hq, h2, h3, ih bs hbs, List.cons_append,
      List.nil_append]

/-- A successful decode yields bytes. -/
theorem DecodeString_lt (xs d : List Nat) (h : DecodeString xs = .ok d) : ∀ b ∈ d, b < 256 := by
  induction xs using DecodeString.induct generalizing d with
  | case1 => simp [DecodeString] at h; subst h; simp
  | case2 p hp => simp [DecodeString, hp] at h
  | case3 p hp => simp [DecodeString, hp] at h
  | case4 p q rest hp => simp [DecodeString, hp] at h
  | case5 p q rest a hp hq => simp [DecodeString, hp, hq] at h
  | case6 p q rest a hp b hq e he ih => simp [DecodeString, hp, hq, he] at h
  | case7 p q rest a hp b hq bs hbs ih =>
    simp only [DecodeString, hp, hq, hbs] at h
    injection h with h
    subst h
    intro x hx
    rcases List.mem_cons.1 hx with rfl | hx
    · exact (byte_of_hex_digits a (fromHexChar_lt _ _ hp) b (fromHexChar_lt _ _ hq)).1
    · exact ih bs hbs x hx

/-- The decoder fails exactly on odd length or on a character that is no hex digit. -/
theorem DecodeString_error_iff (xs : List Nat) :
    (∃ e, DecodeString xs = .error e) ↔ (xs.length % 2 = 1 ∨ ∃ c ∈ xs, isHexChar c = false) := by
  induction xs using DecodeString.induct with
  | case1 => simp [DecodeString]
  | case2 p hp => simp [DecodeString, hp]
  | case3 p hp => simp [DecodeString, hp]
  | case4 p q rest hp =>
    have := (fromHexChar_eq_none p).1 hp
    simp [DecodeString, hp, this]
  | case5 p q rest a hp hq =>
    have := (fromHexChar_eq_none q).1 hq
    simp [DecodeString, hp, hq, this]
  | case6 p q rest a hp b hq e he ih =>
    simp only [DecodeString, hp, hq, he]
    have h1 := ih.1 ⟨e, he⟩
    constructor
    · intro _
      rcases h1 with h1 | ⟨c, hc, hc2⟩
      · left; simp only [List.length_cons]; omega
      · right; exact ⟨c, by simp [hc], hc2⟩
    · intro _; exact ⟨e, rfl⟩
  | case7 p q rest a hp b hq bs hbs ih =>
    simp only [DecodeString, hp, hq, hbs]
    have hp2 : isHexChar p = true := by
      cases h : isHexChar p
      · rw [← fromHexChar_eq_none, hp] at h; simp at h
      · rfl
    have hq2 : isHexChar q = true := by
      cases h : isHexChar q
      · rw [← fromHexChar_eq_none, hq] at h; simp at h
      · rfl
    have h1 : ¬ (rest.length % 2 = 1 ∨ ∃ c ∈ rest, isHexChar c = false) := by
      rw [← ih, hbs]; simp
    constructor
    · rintro ⟨e, he⟩; simp at he
    · intro h
      exfalso
      apply h1
      rcases h with h | ⟨c, hc, hc2⟩
      · left; simp only [List.length_cons] at h; omega
      · simp only [List.mem_cons] at hc
        rcases hc with rfl | rfl | hc
        · rw [hp2] at hc2; simp at hc2
        · rw [hq2] at hc2; simp at hc2
        · right; exact ⟨c, hc, hc2⟩

theorem hextable_mem_of_byte : ∀ v, v < 256 →
    hextable.getD (v >>> 4) 0 ∈ hextable ∧ hextable.getD (v &&& 0x0f) 0 ∈ hextable := by
  decide

theorem EncodeToString_mem (bs : List Nat) (h : ∀ b ∈ bs, b < 256) :
    ∀ c ∈ EncodeToString bs, c ∈ hextable := by
  induction bs with
  | nil => simp [EncodeToString]
  | cons v rest ih =>
    intro c hc
    simp only [EncodeToString, List.mem_cons] at hc
    obtain ⟨h1, h2⟩ := hextable_mem_of_byte v (h v (by simp))
    rcases hc with rfl | rfl | hc
    · exact h1
    · exact h2
    · exact ih (fun b hb => h b (by simp [hb])) c hc

/-- Flipping one bit of a lowercase hex digit changes its value or makes it no hex
digit, unless the bit is the case bit (bit 5) of a letter. -/
theorem fromHexChar_flip : ∀ c ∈ hextable, ∀ k, k < 8 → ¬ (k = 5 ∧ 97 ≤ c) →
    fromHexChar (c ^^^ 2 ^ k) ≠ fromHexChar c := by
  decide

theorem DecodeString_flipBit_ne (mac : List Nat) (hmac : ∀ b ∈ mac, b < 256) (j k : Nat)
    (hj : j < (EncodeToString mac).length) (hk : k < 8)
    (hcase : ¬ (k = 5 ∧ 97 ≤ (EncodeToString mac).getD j 0)) :
    DecodeString (flipBit (EncodeToString mac) j k) ≠ .ok mac := by
  intro h
  have h1 := DecodeString_ok_map _ _ h
  have h2 := DecodeString_ok_map _ _ (DecodeString_EncodeToString mac hmac)
  rw [← h2] at h1
  have hc : (EncodeToString mac).getD j 0 = (EncodeToString mac)[j] := List.getD_eq_getElem _ _ hj
  have h3 := congrArg (fun l => l[j]?) h1
  simp only [flipBit, List.map_set, List.getElem?_map] at h3
  rw [List.getElem?_set_self (by simpa using hj), List.getElem?_eq_getElem hj] at h3
  simp only [Option.map_some', Option.some.injEq] at h3
  rw [hc] at h3 hcase
  exact fromHexChar_flip _ (EncodeToString_mem mac hmac _ (List.getElem_mem _)) k hk hcase h3

theorem sha256_scheme_length : (asciiBytes "sha256=").length = 7 := by decide

theorem flipBit_validSignatureOf (s b : List Nat) (i k : Nat) (hi : 7 ≤ i) :
    flipBit (validSignatureOf s b) i k =
      asciiBytes "sha256=" ++ flipBit (EncodeToString (hmacSha256 s b)) (i - 7) k := by
  unfold flipBit validSignatureOf
  rw [List.set_append_right _ _ (by rw [sha256_scheme_length]; exact hi),
    List.getD_append_right _ _ _ _ (by rw [sha256_scheme_length]; exact hi),
    sha256_scheme_length]

theorem validSignatureOf_length (s b : List Nat) : (validSignatureOf s b).length = 71 := by
  simp [validSignatureOf, sha256_scheme_length, EncodeToString_length, hmacSha256_length]

/-- The decoder succeeds with `d` as soon as the digits of its input have the values of
the digits of `d`. -/
theorem DecodeString_of_map (d : List Nat) (hd : ∀ b ∈ d, b < 256) (xs : List Nat)
    (h : xs.map fromHexChar = d.flatMap (fun v => [some (v >>> 4), some (v &&& 0x0f)])) :
    DecodeString xs = .ok d := by
  induction d generalizing xs with
  | nil =>
    cases xs with
    | nil => rfl
    | cons p rest => simp at h
  | cons v d ih =>
    match xs, h with
    | [], h => simp at h
    | [p], h => simp at h
    | p :: q :: rest, h =>
      simp only [List.map_cons, List.flatMap_cons, List.cons_append, List.nil_append,
        List.cons.injEq] at h
      obtain ⟨hp, hq, hrest⟩ := h
      have hv := (hex_digits_of_byte v (hd v (by simp))).2.2
      simp only [DecodeString, hp, hq, ih (fun b hb => hd b (by simp [hb])) rest hrest, hv]

/-- Flipping the case bit (bit 5) of a lowercase letter digit keeps its value. -/
theorem fromHexChar_flip_case : ∀ c ∈ hextable, 97 ≤ c →
    fromHexChar (c ^^^ 2 ^ 5) = fromHexChar c := by
  decide

theorem DecodeString_flipBit_case (mac : List Nat) (hmac : ∀ b ∈ mac, b < 256) (j : Nat)
    (hj : j < (EncodeToString mac).length) (hcase : 97 ≤ (EncodeToString mac).getD j 0) :
    DecodeString (flipBit (EncodeToString mac) j 5) = .ok mac := by
  apply DecodeString_of_map mac hmac
  rw [← DecodeString_ok_map _ _ (DecodeString_EncodeToString mac hmac)]
  have hc : (EncodeToString mac).getD j 0 = (EncodeToString mac)[j] := List.getD_eq_getElem _ _ hj
  rw [hc] at hcase
  have hf := fromHexChar_flip_case _ (EncodeToString_mem mac hmac _ (List.getElem_mem hj)) hcase
  apply List.ext_getElem?
  intro n
  simp only [flipBit, List.map_set, List.getElem?_set, List.getElem?_map, hc, hf]
  split_ifs with h1 h2
  · subst h1; rw [List.getElem?_eq_getElem hj]; rfl
  · simp at h2; omega
  · rfl

theorem flipBit_validSignatureOf_scheme (s b : List Nat) (i k : Nat) (hi : i < 7) :
    (flipBit (validSignatureOf s b) i k).drop 7 = EncodeToString (hmacSha256 s b) := by
  unfold flipBit validSignatureOf
  rw [List.set_append_left _ _ (by rw [sha256_scheme_length]; exact hi)]
  exact List.drop_left' (by rw [List.length_set, sha256_scheme_length])

/-! ## The handler on a well-received request -/

/-- With a non-empty secret, a valid User-Agent, a readable body and a signature header
of at least seven bytes, the handler's answer is decided by the hex decoding of the
header after its first seven bytes. -/
theorem handler_verify (config : serverConfig) (c : Request) (body : List Nat)
    (hs : config.Secret ≠ []) (hb : c.bindErr = false)
    (hua : HasPrefix c.header.UserAgent (asciiBytes "GitHub-Hookshot/") = true)
    (hbody : c.body = some body) (hclose : c.closeErr = false)
    (hlen : 7 ≤ c.header.Signature256.length) :
    githubWebhookTestHandler config c =
      match DecodeString (c.header.Signature256.drop 7) with
      | .error _ => rejected "could not decode hex string"
      | .ok d =>
        if d = hmacSha256 config.Secret body then accepted body else rejected "invalid signature" := by
  cases hd : DecodeString (c.header.Signature256.drop 7) with
  | error e =>
    simp [githubWebhookTestHandler, handlerBody, hb, hua, hbody, hclose, sliceFrom, hlen, hs, hd,
      handleError, deferred, rejected]
  | ok d =>
    have heq := hmacEqual_iff d (hmacSha256 config.Secret body) (DecodeString_lt _ _ hd)
      (hmacSha256_lt _ _)
    by_cases hdm : d = hmacSha256 config.Secret body
    · have hv := heq.2 hdm
      rw [hdm] at hv hd
      simp [githubWebhookTestHandler, handlerBody, hb, hua, hbody, hclose, sliceFrom, hlen, hs,
        hd, hv, hdm, respondOK, deferred, accepted]
    · have hv : hmacEqual d (hmacSha256 config.Secret body) = false := by
        cases h : hmacEqual d (hmacSha256 config.Secret body)
        · rfl
        · exact absurd (heq.1 h) hdm
      simp [githubWebhookTestHandler, handlerBody, hb, hua, hbody, hclose, sliceFrom, hlen, hs,
        hd, hv, hdm, handleError, deferred, rejected]

theorem accepted_ne_rejected (body : List Nat) (msg : String) : accepted body ≠ rejected msg := by
  simp [accepted, rejected]

/-- The header `exSignature` is the valid signature of `exBody` under `exSecret`. -/
theorem validSignatureOf_example : validSignatureOf exSecret exBody = exSignature := by
  decide

/-! ## The claims -/

/-- C1: with a non-empty secret, a valid User-Agent and a readable body, a request whose
signature header is `sha256=` followed by the lowercase hex HMAC-SHA256 of the body
under the secret is answered 200 "OK". The body may be empty. -/
theorem valid_signature_accepted (config : serverConfig) (c : Request) (body : List Nat)
    (hs : config.Secret ≠ []) (hb : c.bindErr = false)
    (hua : HasPrefix c.header.UserAgent (asciiBytes "GitHub-Hookshot/") = true)
    (hbody : c.body = some body) (hclose : c.closeErr = false)
    (hsig : c.header.Signature256 = validSignatureOf config.Secret body) :
    githubWebhookTestHandler config c = accepted body := by
  have hlen : 7 ≤ c.header.Signature256.length := by
    rw [hsig, validSignatureOf_length]; decide
  have hdrop : c.header.Signature256.drop 7 = EncodeToString (hmacSha256 config.Secret body) := by
    rw [hsig]; exact List.drop_left' sha256_scheme_length
  rw [handler_verify config c body hs hb hua hbody hclose hlen, hdrop,
    DecodeString_EncodeToString _ (hmacSha256_lt _ _)]
  simp

/-- Instance: the secret `abc` with the body of an empty JSON object and its signature
`exSignature`, and with the empty body. -/
theorem valid_signature_accepted_witness :
    validSignatureOf exSecret exBody = exSignature ∧
    githubWebhookTestHandler exConfig (mkRequest exUserAgent exSignature exBody)
      = accepted exBody ∧
    githubWebhookTestHandler exConfig
      (mkRequest exUserAgent (validSignatureOf exSecret []) []) = accepted [] :=
  ⟨validSignatureOf_example,
   valid_signature_accepted exConfig (mkRequest exUserAgent exSignature exBody) exBody
     (by decide) rfl (by decide) rfl rfl validSignatureOf_example.symm,
   valid_signature_accepted exConfig (mkRequest exUserAgent (validSignatureOf exSecret []) []) []
     (by decide) rfl (by decide) rfl rfl rfl⟩

/-- C2 (as stated, refuted): a header that does not start with `sha256=` is answered
200 "OK" when the bytes after its first seven are the hex digest; here the header is
`sha1=zz` followed by the digest. -/
theorem sha1_scheme_accepted :
    HasPrefix (asciiBytes "sha1=zz19092633e5aa9a849dfcc9d2df4e76db2df1fcba7f38915f2c7833bd8a510f2f")
      (asciiBytes "sha256=") = false ∧
    githubWebhookTestHandler exConfig (mkRequest exUserAgent
      (asciiBytes "sha1=zz19092633e5aa9a849dfcc9d2df4e76db2df1fcba7f38915f2c7833bd8a510f2f")
      exBody) = accepted exBody := by
  decide

/-- C2 (amended): with a non-empty secret, a valid User-Agent and a readable body, a
signature header of at least seven bytes that does not start with `sha256=` is answered
200 "OK" exactly when the bytes after its first seven hex-decode to the HMAC-SHA256 of
the body under the secret, and is answered 403 otherwise: the first seven bytes are not
inspected. -/
theorem scheme_not_inspected (config : serverConfig) (c : Request) (body : List Nat)
    (hs : config.Secret ≠ []) (hb : c.bindErr = false)
    (hua : HasPrefix c.header.UserAgent (asciiBytes "GitHub-Hookshot/") = true)
    (hbody : c.body = some body) (hclose : c.closeErr = false)
    (hlen : 7 ≤ c.header.Signature256.length)
    (_hscheme : HasPrefix c.header.Signature256 (asciiBytes "sha256=") = false) :
    (githubWebhookTestHandler config c = accepted body ↔
      DecodeString (c.header.Signature256.drop 7) = .ok (hmacSha256 config.Secret body)) ∧
    (githubWebhookTestHandler config c = accepted body ∨
      githubWebhookTestHandler config c = rejected "could not decode hex string" ∨
      githubWebhookTestHandler config c = rejected "invalid signature") := by
  rw [handler_verify config c body hs hb hua hbody hclose hlen]
  cases hd : DecodeString (c.header.Signature256.drop 7) with
  | error e => simp [accepted, rejected]
  | ok d =>
    by_cases hdm : d = hmacSha256 config.Secret body
    · simp [hdm]
    · simp [hdm, accepted, rejected]

/-- Instance: the header `sha1=0123abcd` under the secret `abc`. -/
theorem scheme_not_inspected_witness :
    (githubWebhookTestHandler exConfig (mkRequest exUserAgent (asciiBytes "sha1=0123abcd") exBody)
        = accepted exBody ↔
      DecodeString (List.drop 7 (asciiBytes "sha1=0123abcd"))
        = .ok (hmacSha256 exSecret exBody)) ∧
    (githubWebhookTestHandler exConfig (mkRequest exUserAgent (asciiBytes "sha1=0123abcd") exBody)
        = accepted exBody ∨
      githubWebhookTestHandler exConfig (mkRequest exUserAgent (asciiBytes "sha1=0123abcd") exBody)
        = rejected "could not decode hex string" ∨
      githubWebhookTestHandler exConfig (mkRequest exUserAgent (asciiBytes "sha1=0123abcd") exBody)
        = rejected "invalid signature") :=
  scheme_not_inspected exConfig (mkRequest exUserAgent (asciiBytes "sha1=0123abcd") exBody)
    exBody (by decide) rfl (by decide) rfl rfl (by decide) (by decide)

/-- C3 (the code at the failing inputs): with the secret `"abc"` and a valid User-Agent,
an absent signature header, and likewise the five-byte header `sha1=`, make the slice
expression `header.Signature256[7:]` panic: the handler writes no response and logs
nothing. -/
theorem short_signature_panics :
    githubWebhookTestHandler exConfig (mkRequest exUserAgent [] exBody)
      = { response := none, log := [], panicked := true } ∧
    githubWebhookTestHandler exConfig (mkRequest exUserAgent (asciiBytes "sha1=") exBody)
      = { response := none, log := [], panicked := true } := by
  constructor <;> decide

/-- C4 (as stated, refuted): two single-bit mutations of the valid header `exSignature`
are answered 200 "OK": bit 0 of byte 5 (`sha256=` becomes `sha257=`), and bit 5 of
byte 15 (the digit `e` becomes `E`). -/
theorem single_bit_mutation_accepted :
    flipBit (validSignatureOf exSecret exBody) 5 0
      = asciiBytes "sha257=19092633e5aa9a849dfcc9d2df4e76db2df1fcba7f38915f2c7833bd8a510f2f" ∧
    githubWebhookTestHandler exConfig (mkRequest exUserAgent
      (asciiBytes "sha257=19092633e5aa9a849dfcc9d2df4e76db2df1fcba7f38915f2c7833bd8a510f2f")
      exBody) = accepted exBody ∧
    flipBit (validSignatureOf exSecret exBody) 15 5
      = asciiBytes "sha256=19092633E5aa9a849dfcc9d2df4e76db2df1fcba7f38915f2c7833bd8a510f2f" ∧
    githubWebhookTestHandler exConfig (mkRequest exUserAgent
      (asciiBytes "sha256=19092633E5aa9a849dfcc9d2df4e76db2df1fcba7f38915f2c7833bd8a510f2f")
      exBody) = accepted exBody := by
  rw [validSignatureOf_example]
  decide

/-- C4 (amended): with a non-empty secret, a valid User-Agent and a readable body, a
header that differs from the valid signature header in exactly one bit is answered 403,
unless that bit lies in the first seven bytes (the scheme, which is not inspected) or is
the case bit (bit 5) of one of the letter digits `a`-`f` (the decoder accepts both
cases); in these two cases it is answered 200 "OK". -/
theorem single_bit_mutation_outcome (config : serverConfig) (c : Request) (body : List Nat)
    (i k : Nat) (hs : config.Secret ≠ []) (hb : c.bindErr = false)
    (hua : HasPrefix c.header.UserAgent (asciiBytes "GitHub-Hookshot/") = true)
    (hbody : c.body = some body) (hclose : c.closeErr = false)
    (hi : i < (validSignatureOf config.Secret body).length) (hk : k < 8)
    (hsig : c.header.Signature256 = flipBit (validSignatureOf config.Secret body) i k) :
    (githubWebhookTestHandler config c = accepted body ↔
      (i < 7 ∨ (k = 5 ∧ 97 ≤ (validSignatureOf config.Secret body).getD i 0))) ∧
    (githubWebhookTestHandler config c = accepted body ∨
      githubWebhookTestHandler config c = rejected "could not decode hex string" ∨
      githubWebhookTestHandler config c = rejected "invalid signature") := by
  have hlen : 7 ≤ c.header.Signature256.length := by
    rw [hsig]; simp only [flipBit, List.length_set, validSignatureOf_length]; decide
  have hmac := hmacSha256_lt config.Secret body
  rw [handler_verify config c body hs hb hua hbody hclose hlen]
  by_cases hscheme : i < 7
  · rw [hsig, flipBit_validSignatureOf_scheme _ _ _ _ hscheme, DecodeString_EncodeToString _ hmac]
    refine ⟨⟨fun _ => Or.inl hscheme, fun _ => ?_⟩, Or.inl ?_⟩ <;> simp
  · have hdigest : 7 ≤ i := Nat.le_of_not_lt hscheme
    have hdrop : c.header.Signature256.drop 7
        = flipBit (EncodeToString (hmacSha256 config.Secret body)) (i - 7) k := by
      rw [hsig, flipBit_validSignatureOf _ _ _ _ hdigest]
      exact List.drop_left' sha256_scheme_length
    have hj : i - 7 < (EncodeToString (hmacSha256 config.Secret body)).length := by
      rw [validSignatureOf_length] at hi
      rw [EncodeToString_length, hmacSha256_length]; omega
    have hget : (validSignatureOf config.Secret body).getD i 0
        = (EncodeToString (hmacSha256 config.Secret body)).getD (i - 7) 0 := by
      rw [validSignatureOf,
        List.getD_append_right _ _ _ _ (by rw [sha256_scheme_length]; exact hdigest),
        sha256_scheme_length]
    rw [hdrop, hget]
    by_cases hcase : k = 5 ∧ 97 ≤ (EncodeToString (hmacSha256 config.Secret body)).getD (i - 7) 0
    · have hdec : DecodeString (flipBit (EncodeToString (hmacSha256 config.Secret body)) (i - 7) k)
          = .ok (hmacSha256 config.Secret body) := by
        rw [hcase.1]; exact DecodeString_flipBit_case _ hmac _ hj hcase.2
      rw [hdec]
      refine ⟨⟨fun _ => Or.inr hcase, fun _ => ?_⟩, Or.inl ?_⟩ <;> simp
    · have hne := DecodeString_flipBit_ne _ hmac (i - 7) k hj hk hcase
      have hno : ¬ (i < 7 ∨ (k = 5 ∧
          97 ≤ (EncodeToString (hmacSha256 config.Secret body)).getD (i - 7) 0)) := by
        rintro (h | h)
        · exact hscheme h
        · exact hcase h
      cases hd : DecodeString (flipBit (EncodeToString (hmacSha256 config.Secret body)) (i - 7) k) with
      | error e =>
        exact ⟨⟨fun h => absurd h.symm (accepted_ne_rejected _ _), fun h => absurd h hno⟩,
          Or.inr (Or.inl rfl)⟩
      | ok d =>
        have hdm : d ≠ hmacSha256 config.Secret body := by
          intro h; rw [h] at hd; exact hne hd
        have hrej : (if d = hmacSha256 config.Secret body then accepted body
            else rejected "invalid signature") = rejected "invalid signature" := if_neg hdm
        show ((if d = hmacSha256 config.Secret body then accepted body
            else rejected "invalid signature") = accepted body ↔ _) ∧ _
        rw [hrej]
        exact ⟨⟨fun h => absurd h.symm (accepted_ne_rejected _ _), fun h => absurd h hno⟩,
          Or.inr (Or.inr hrej)⟩

/-- Instance: flipping bit 0 of byte 7 of `exSignature` (the first digit `1` becomes `0`)
gives a header that is answered 403. -/
theorem single_bit_mutation_outcome_witness :
    flipBit (validSignatureOf exSecret exBody) 7 0
      = asciiBytes "sha256=09092633e5aa9a849dfcc9d2df4e76db2df1fcba7f38915f2c7833bd8a510f2f" ∧
    (githubWebhookTestHandler exConfig
        (mkRequest exUserAgent (flipBit (validSignatureOf exSecret exBody) 7 0) exBody)
        = accepted exBody ↔
      (7 < 7 ∨ (0 = 5 ∧ 97 ≤ (validSignatureOf exConfig.Secret exBody).getD 7 0))) ∧
    (githubWebhookTestHandler exConfig
        (mkRequest exUserAgent (flipBit (validSignatureOf exSecret exBody) 7 0) exBody)
        = accepted exBody ∨
      githubWebhookTestHandler exConfig
        (mkRequest exUserAgent (flipBit (validSignatureOf exSecret exBody) 7 0) exBody)
        = rejected "could not decode hex string" ∨
      githubWebhookTestHandler exConfig
        (mkRequest exUserAgent (flipBit (validSignatureOf exSecret exBody) 7 0) exBody)
        = rejected "invalid signature") :=
  ⟨by rw [validSignatureOf_example]; decide,
   single_bit_mutation_outcome exConfig
    (mkRequest exUserAgent (flipBit (validSignatureOf exSecret exBody) 7 0) exBody) exBody 7 0
    (by decide) rfl (by decide) rfl rfl
    (by rw [validSignatureOf_length]; decide) (by decide) rfl⟩

/-- C5: with the empty secret, every request with a valid User-Agent and a readable body
is answered 200 "OK", whatever its signature header. -/
theorem empty_secret_accepts (config : serverConfig) (c : Request) (body : List Nat)
    (hs : config.Secret = []) (hb : c.bindErr = false)
    (hua : HasPrefix c.header.UserAgent (asciiBytes "GitHub-Hookshot/") = true)
    (hbody : c.body = some body) (hclose : c.closeErr = false) :
    githubWebhookTestHandler config c = accepted body := by
  simp [githubWebhookTestHandler, handlerBody, hs, hb, hua, hbody, hclose, respondOK, deferred,
    accepted]

/-- Instance: the empty secret, with an absent header and with the header `sha1=zz`. -/
theorem empty_secret_accepts_witness :
    githubWebhookTestHandler exOpenConfig (mkRequest exUserAgent [] exBody) = accepted exBody ∧
    githubWebhookTestHandler exOpenConfig (mkRequest exUserAgent (asciiBytes "sha1=zz") exBody)
      = accepted exBody :=
  ⟨empty_secret_accepts exOpenConfig (mkRequest exUserAgent [] exBody) exBody rfl rfl
     (by decide) rfl rfl,
   empty_secret_accepts exOpenConfig (mkRequest exUserAgent (asciiBytes "sha1=zz") exBody) exBody
     rfl rfl (by decide) rfl rfl⟩

/-- C6: with a non-empty secret, a valid User-Agent and a readable body, when the
signature header is `sha256=` followed by a remainder that hex-decodes to `d`, the
answer is 200 "OK" if and only if `d` is the HMAC-SHA256 of the body under the secret,
and 403 "invalid signature" otherwise, in particular when `d` is not 32 bytes long. -/
theorem digest_decides (config : serverConfig) (c : Request) (body r d : List Nat)
    (hs : config.Secret ≠ []) (hb : c.bindErr = false)
    (hua : HasPrefix c.header.UserAgent (asciiBytes "GitHub-Hookshot/") = true)
    (hbody : c.body = some body) (hclose : c.closeErr = false)
    (hsig : c.header.Signature256 = asciiBytes "sha256=" ++ r)
    (hd : DecodeString r = .ok d) :
    (githubWebhookTestHandler config c = accepted body ↔ d = hmacSha256 config.Secret body) ∧
    (d ≠ hmacSha256 config.Secret body →
      githubWebhookTestHandler config c = rejected "invalid signature") ∧
    (d.length ≠ 32 → githubWebhookTestHandler config c = rejected "invalid signature") := by
  have hlen : 7 ≤ c.header.Signature256.length := by
    rw [hsig, List.length_append, sha256_scheme_length]; omega
  have hdrop : c.header.Signature256.drop 7 = r := by
    rw [hsig]; exact List.drop_left' sha256_scheme_length
  rw [handler_verify config c body hs hb hua hbody hclose hlen, hdrop, hd]
  have hrej : d ≠ hmacSha256 config.Secret body →
      (if d = hmacSha256 config.Secret body then accepted body else rejected "invalid signature")
        = rejected "invalid signature" := by
    intro h; simp [h]
  refine ⟨?_, hrej, ?_⟩
  · by_cases hdm : d = hmacSha256 config.Secret body
    · simp [hdm]
    · simp [hdm, accepted, rejected]
  · intro hl
    apply hrej
    intro h
    rw [h, hmacSha256_length] at hl
    exact hl rfl

/-- Instance: the header `sha256=00ff`, whose remainder decodes to the two bytes 0 and
255, is answered 403 "invalid signature". -/
theorem digest_decides_witness :
    githubWebhookTestHandler exConfig (mkRequest exUserAgent (asciiBytes "sha256=00ff") exBody)
      = rejected "invalid signature" :=
  (digest_decides exConfig (mkRequest exUserAgent (asciiBytes "sha256=00ff") exBody) exBody
    (asciiBytes "00ff") [0, 255] (by decide) rfl (by decide) rfl rfl rfl rfl).2.2 (by decide)

/-- C7: when the User-Agent does not start with `GitHub-Hookshot/`, the answer is 403
"invalid user agent", whatever the secret, the body (readable or not) and the signature
header. -/
theorem invalid_user_agent_rejected (config : serverConfig) (c : Request)
    (hb : c.bindErr = false)
    (hua : HasPrefix c.header.UserAgent (asciiBytes "GitHub-Hookshot/") = false) :
    githubWebhookTestHandler config c = rejected "invalid user agent" := by
  simp [githubWebhookTestHandler, handlerBody, hb, hua, handleError, deferred, rejected]

/-- Instance: the User-Agent `curl/7.64` with the valid signature `exSignature`. -/
theorem invalid_user_agent_rejected_witness :
    githubWebhookTestHandler exConfig (mkRequest (asciiBytes "curl/7.64") exSignature exBody)
      = rejected "invalid user agent" :=
  invalid_user_agent_rejected exConfig (mkRequest (asciiBytes "curl/7.64") exSignature exBody)
    rfl (by decide)

/-- C8: with a non-empty secret, a valid User-Agent and a readable body, when the
signature header is `sha256=` followed by a remainder of odd length or containing a
character that is no hex digit, the answer is 403 "could not decode hex string", and
the handler does not panic. -/
theorem invalid_hex_rejected (config : serverConfig) (c : Request) (body r : List Nat)
    (hs : config.Secret ≠ []) (hb : c.bindErr = false)
    (hua : HasPrefix c.header.UserAgent (asciiBytes "GitHub-Hookshot/") = true)
    (hbody : c.body = some body) (hclose : c.closeErr = false)
    (hsig : c.header.Signature256 = asciiBytes "sha256=" ++ r)
    (hr : r.length % 2 = 1 ∨ ∃ ch ∈ r, isHexChar ch = false) :
    githubWebhookTestHandler config c = rejected "could not decode hex string" ∧
    (githubWebhookTestHandler config c).panicked = false := by
  have hlen : 7 ≤ c.header.Signature256.length := by
    rw [hsig, List.length_append, sha256_scheme_length]; omega
  have hdrop : c.header.Signature256.drop 7 = r := by
    rw [hsig]; exact List.drop_left' sha256_scheme_length
  obtain ⟨e, he⟩ := (DecodeString_error_iff r).2 hr
  rw [handler_verify config c body hs hb hua hbody hclose hlen, hdrop, he]
  exact ⟨rfl, rfl⟩

/-- Instance: the header `sha256=12zz`, in which `z` (byte 122) is no hex digit. -/
theorem invalid_hex_rejected_witness :
    githubWebhookTestHandler exConfig (mkRequest exUserAgent (asciiBytes "sha256=12zz") exBody)
      = rejected "could not decode hex string" ∧
    (githubWebhookTestHandler exConfig
      (mkRequest exUserAgent (asciiBytes "sha256=12zz") exBody)).panicked = false :=
  invalid_hex_rejected exConfig (mkRequest exUserAgent (asciiBytes "sha256=12zz") exBody) exBody
    (asciiBytes "12zz") (by decide) rfl (by decide) rfl rfl rfl (Or.inr ⟨122, by decide, by decide⟩)

/-- C9 (the code at the failing inputs): when `config.toml` opens and its content is
rejected by `toml.Unmarshal`, and when `config.toml` exists and cannot be opened, `main`
logs the failure and goes on to serve with the zero-valued configuration, under which a
request without any signature is answered 200 "OK". -/
theorem main_serves_after_load_failure :
    main exBadTomlEnv
      = { log := ["could not unmarshal config content"], serving := some zeroConfig } ∧
    main exUnreadableEnv
      = { log := ["could not read config file"], serving := some zeroConfig } ∧
    githubWebhookTestHandler zeroConfig (mkRequest exUserAgent [] exBody) = accepted exBody := by
  decide

end Webhook
